import Mathlib

/-!
Verification development for the `veb-tree` repository (`src/lib.rs`), a van
Emde Boas tree over a bounded integer universe.

The Rust structure `VEBTree` is shallowly embedded as the inductive type
`VEBTree` below.  Machine integers (`i64`) are modelled as `Int`; every value
exercised here is far from the 64-bit boundary, so no wrap-around is possible
and none is modelled.  Rust panics (`unwrap`/`expect` on `None`/`Err`, and
`Vec` indexing through `children.get(..).expect(..)`) are modelled by an
`Option` layer: `none` means the operation panics.  `Result<Self, &str>` is
modelled as `Except String VEBTree`.

Floating point: the source computes
`sqrt_universe = ((((max_elem as f64).ln()) / (2f64).ln()) / 2f64).exp2() as i64`
and `high(x) = ((x as f64) / (sqrt_universe as f64)).floor() as i64`.  Under
exact real arithmetic these are `⌊√max_elem⌋` and `⌊x / sqrt_universe⌋`; for
the small operands appearing in this development (all ≤ 100) the `f64`
computations are exact to well below one unit in the last place, so the
truncations agree with the real-valued semantics.  They are embedded as
`fsqrt` (via `Nat.sqrt`) and `Int.fdiv` (floor division, which is what
`f64::floor` of the quotient yields, unlike Rust's truncating integer `/`).
`x % sqrt_universe` on `i64` is truncating remainder, `Int.tmod`.

Two functions of the source do not borrow-check/compile as written and are
noted at their embeddings: `insert` (its `map_or_else` moves out of a `&mut`
option; the evident intent is embedded) and `delete` (its general branch
references the undefined identifier `firstCluster`, calls the two-argument
`subtree!` macro with one argument, and moves out of options it still needs;
that branch is embedded as a panic `none`, and only the two well-formed
leading branches are modelled).
-/

/-- Shallow embedding of the Rust struct `VEBTree`: `min`, `max`, `universe`
and `sqrt_universe` fields (the `universe` field is called `univ` because
`universe` is a Lean keyword), the optional boxed `summary`, and the
`children` vector of optional boxed subtrees. -/
inductive VEBTree : Type where
  | node (min max univ sqrt_universe : Int)
         (summary : Option VEBTree) (children : List (Option VEBTree)) : VEBTree

namespace VEBTree

/-- Field accessor: `self.min` (also the observer `minimum()`). -/
def min : VEBTree → Int | .node m _ _ _ _ _ => m

/-- Field accessor: `self.max` (also the observer `maximum()`). -/
def max : VEBTree → Int | .node _ m _ _ _ _ => m

/-- Field accessor: `self.universe` (also the observer `universe()`). -/
def univ : VEBTree → Int | .node _ _ u _ _ _ => u

/-- Field accessor: `self.sqrt_universe`. -/
def sqrt_universe : VEBTree → Int | .node _ _ _ s _ _ => s

/-- Field accessor: `self.summary`. -/
def summary : VEBTree → Option VEBTree | .node _ _ _ _ s _ => s

/-- Field accessor: `self.children`. -/
def children : VEBTree → List (Option VEBTree) | .node _ _ _ _ _ c => c

@[simp] theorem min_node (mn mx u s sm ch) : min (.node mn mx u s sm ch) = mn := rfl
@[simp] theorem max_node (mn mx u s sm ch) : max (.node mn mx u s sm ch) = mx := rfl
@[simp] theorem univ_node (mn mx u s sm ch) : univ (.node mn mx u s sm ch) = u := rfl
@[simp] theorem sqrt_universe_node (mn mx u s sm ch) :
    sqrt_universe (.node mn mx u s sm ch) = s := rfl
@[simp] theorem summary_node (mn mx u s sm ch) : summary (.node mn mx u s sm ch) = sm := rfl
@[simp] theorem children_node (mn mx u s sm ch) : children (.node mn mx u s sm ch) = ch := rfl

/-- Embeds `fn high(&self, x: i64) -> i64 { ((x as f64) / (self.sqrt_universe as f64)).floor() as i64 }`:
real-valued division followed by `floor` is floor division (`Int.fdiv`). -/
def high (t : VEBTree) (x : Int) : Int := Int.fdiv x t.sqrt_universe

/-- Embeds `fn low(&self, x: i64) -> i64 { x % self.sqrt_universe }`: Rust `%` on `i64`
is truncating remainder (`Int.tmod`). -/
def low (t : VEBTree) (x : Int) : Int := Int.tmod x t.sqrt_universe

/-- Embeds `fn index(&self, i: i64, j: i64) -> i64 { i * self.sqrt_universe + j }`. -/
def index (t : VEBTree) (i j : Int) : Int := i * t.sqrt_universe + j

/-- The `subtree!` macro: `self.children.get(i).expect("child idx out of bounds")`.
Result `none` models the `expect` panic on an out-of-bounds index, which a
negative `i` also triggers (`as usize` wraps it to a huge index); `some slot`
is the vector slot itself (an `Option` subtree). -/
def childAt (t : VEBTree) (i : Int) : Option (Option VEBTree) :=
  if 0 ≤ i then t.children.get? i.toNat else none

theorem sizeOf_childAt {t : VEBTree} {i : Int} {sub : VEBTree}
    (h : childAt t i = some (some sub)) : sizeOf sub < sizeOf t := by
  cases t with
  | node mn mx u s sm ch =>
    simp only [childAt, children] at h
    split at h
    · have hmem : some sub ∈ ch := List.get?_mem h
      have h1 : sizeOf (some sub) < sizeOf ch := List.sizeOf_lt_of_mem hmem
      simp at h1 ⊢
      omega
    · exact absurd h (by simp)

theorem sizeOf_summary {t s : VEBTree} (h : summary t = some s) : sizeOf s < sizeOf t := by
  cases t with
  | node mn mx u sq sm ch =>
    simp only [summary] at h
    subst h
    simp
    omega

/-- Embeds `pub fn has(&self, x: i64) -> bool`, line for line; `none` models the
panic of the `subtree!` macro when `high(x)` is out of bounds. -/
def has (t : VEBTree) (x : Int) : Option Bool :=
  if x == t.max || x == t.min then some true
  else if t.univ == 2 || x > t.univ then some false
  else
    match h : childAt t (t.high x) with
    | none => none
    | some none => some false
    | some (some sub) => has sub (t.low x)
termination_by sizeOf t
decreasing_by exact sizeOf_childAt h

mutual

/-- Embeds `pub fn find_next(&self, x: i64) -> Option<i64>`, line for line.  The
outer `Option` models panics: of `subtree!`, and of the
`subtree.find_next(self.low(x)).unwrap()` call when the recursive result is
`None`; the inner `Option` is the source's own return value. -/
def find_next (t : VEBTree) (x : Int) : Option (Option Int) :=
  if t.univ == 2 then
    some (if x == 0 && t.max == 1 then some 1 else none)
  else if x < t.min then some (some t.min)
  else
    match h : childAt t (t.high x) with
    | none => none
    | some none => find_subtree t x
    | some (some sub) =>
        if t.low x < sub.max then
          match find_next sub (t.low x) with
          | none => none
          | some none => none
          | some (some nxt) => some (some (t.index (t.high x) nxt))
        else find_subtree t x
termination_by 2 * sizeOf t + 1
decreasing_by
  all_goals first
    | (have hlt := sizeOf_childAt h; omega)
    | omega

/-- Embeds `fn find_subtree(&self, x: i64) -> Option<i64>`, line for line.  `none`
models the panics of `self.summary.as_ref().unwrap()` when no summary exists
and of `subtree!(self, next_index).unwrap()` when the slot returned by the
summary probe is empty or out of bounds. -/
def find_subtree (t : VEBTree) (x : Int) : Option (Option Int) :=
  match hs : t.summary with
  | none => none
  | some s =>
      match find_next s (t.high x) with
      | none => none
      | some none => some none
      | some (some j) =>
          match childAt t j with
          | none => none
          | some none => none
          | some (some sub) => some (some (t.index j sub.min))
termination_by 2 * sizeOf t
decreasing_by
  have := sizeOf_summary hs; omega

end

/-- The split-factor computation of `VEBTree::new`:
`((((max_elem as f64).ln()) / (2f64).ln()) / 2f64).exp2() as i64`.  Under real
arithmetic `exp2(log2(u) / 2) = √u`, and the `as i64` truncation yields
`⌊√u⌋`, i.e. `Nat.sqrt` of the (nonnegative) operand; the `f64` rounding is
exact for the small operands used in this development. -/
def fsqrt (u : Int) : Int := (Nat.sqrt u.toNat : Int)

/-- Embeds `pub fn new(max_elem: i64) -> Result<Self, &'static str>`, line for line.
`2 ^ 63 - 1` is `isize::max_value()` on a 64-bit host.  The result `none`
models a panic: the source builds the summary with
`VEBTree::new(sqrt_universe).unwrap()`, which panics whenever the recursive
call returns `Err` (e.g. `sqrt_universe = 1`) or itself panics. -/
def new (max_elem : Int) : Option (Except String VEBTree) :=
  if max_elem ≤ 1 then some (Except.error "universe size must be > 2")
  else if max_elem > 2 ^ 63 - 1 then some (Except.error "universe too big")
  else
    if max_elem ≤ 2 then
      some (Except.ok (.node (-1) (-1) max_elem (fsqrt max_elem) none [none]))
    else
      match new (fsqrt max_elem) with
      | some (Except.ok sm) =>
          some (Except.ok (.node (-1) (-1) max_elem (fsqrt max_elem) (some sm)
                  (List.replicate (fsqrt max_elem).toNat none)))
      | _ => none
termination_by max_elem.toNat
decreasing_by
  simp only [fsqrt]
  rename_i h1 h2 h3
  have hlt : 1 < max_elem.toNat := by omega
  have := Nat.sqrt_lt_self hlt
  omega

/-- Embeds `fn empty_insert(&mut self, x: i64) { self.min = x; self.max = x; }`. -/
def empty_insert (t : VEBTree) (x : Int) : VEBTree :=
  match t with | .node _ _ u s sm ch => .node x x u s sm ch

/-- Functional update of the `min` field. -/
def setMin (t : VEBTree) (m : Int) : VEBTree :=
  match t with | .node _ mx u s sm ch => .node m mx u s sm ch

/-- Functional update of the `max` field. -/
def setMax (t : VEBTree) (m : Int) : VEBTree :=
  match t with | .node mn _ u s sm ch => .node mn m u s sm ch

/-- Functional update of one `children` slot (the source's
`mem::replace(subtree, ..)` / `subtree.insert(low)` through `get_mut`). -/
def setChild (t : VEBTree) (n : Nat) (c : Option VEBTree) : VEBTree :=
  match t with | .node mn mx u s sm ch => .node mn mx u s sm (ch.set n c)

@[simp] theorem empty_insert_node (mn mx u s sm ch x) :
    empty_insert (.node mn mx u s sm ch) x = .node x x u s sm ch := rfl
@[simp] theorem setMin_node (mn mx u s sm ch m) :
    setMin (.node mn mx u s sm ch) m = .node m mx u s sm ch := rfl
@[simp] theorem setMax_node (mn mx u s sm ch m) :
    setMax (.node mn mx u s sm ch) m = .node mn m u s sm ch := rfl
@[simp] theorem setChild_node (mn mx u s sm ch n c) :
    setChild (.node mn mx u s sm ch) n c = .node mn mx u s sm (ch.set n c) := rfl

/-- The value of the local `x` after `insert`'s
`if x < self.min { mem::swap(&mut self.min, &mut x); }`: the value that is
pushed down into a cluster. -/
def swapX (t : VEBTree) (x0 : Int) : Int := if x0 < t.min then t.min else x0

/-- The value of `self.min` after the same swap step. -/
def swapMin (t : VEBTree) (x0 : Int) : Int := if x0 < t.min then x0 else t.min

mutual

/-- Embeds `pub fn insert(&mut self, mut x: i64)`, decomposed as: empty fast path,
swap step (`swapX`/`swapMin`), cluster step (`clusterStep`), and the final
`if x > self.max { self.max = x; }`.  The source body does not borrow-check
as written (`map_or_else` moves out of a `&mut` option slot); its evident
intent is embedded.  `none` models a panic inside the cluster step. -/
def insert (t : VEBTree) (x0 : Int) : Option VEBTree :=
  if t.min == -1 then some (t.empty_insert x0)
  else
    (clusterStep t (swapX t x0) (swapMin t x0)).map
      (fun t2 => if swapX t x0 > t2.max then setMax t2 (swapX t x0) else t2)
termination_by 2 * sizeOf t + 1
decreasing_by omega

/-- The `if universe > 2` block of `insert`: on an absent cluster slot,
allocate `VEBTree::new(sqrt_universe).unwrap()` (panic `none` if that fails)
and record `low(x)` via the empty-insert fast path; on a present slot recurse.
`newMin` is the post-swap cached minimum, written here because the source has
already assigned it by this point.  `none` also models the panic of
`self.children.get_mut(idx).unwrap()` on an out-of-bounds cluster index. -/
def clusterStep (t : VEBTree) (x newMin : Int) : Option VEBTree :=
  if t.univ > 2 then
    match h : childAt t (t.high x) with
    | none => none
    | some none =>
        match new t.sqrt_universe with
        | some (Except.ok nt) =>
            some (setChild (setMin t newMin) (t.high x).toNat
                    (some (nt.empty_insert (t.low x))))
        | _ => none
    | some (some sub) =>
        (insert sub (t.low x)).map
          (fun sub2 => setChild (setMin t newMin) (t.high x).toNat (some sub2))
  else some (setMin t newMin)
termination_by 2 * sizeOf t
decreasing_by
  have hlt := sizeOf_childAt h; omega

end

/-- Embeds `pub fn delete(&mut self, x_: i64)`.  Only the two leading branches are
well formed in the source; they are embedded line for line.  The general
branch (`universe > 2` with more than one element) does not compile: it
references the undefined identifier `firstCluster`, invokes the two-argument
`subtree!` macro with a single argument, moves `self.summary` out of a
borrowed context, and assigns an `if` without `else` to `self.max`; it is
embedded as `none`. -/
def delete (t : VEBTree) (x : Int) : Option VEBTree :=
  if t.min == t.max then some ((t.setMin (-1)).setMax (-1))
  else if t.univ == 2 then
    some ((t.setMin (if x == 0 then 1 else 0)).setMax (if x == 0 then 1 else 0))
  else none

/-- Extracts the tree from a construction outcome: `some t` when `new`
returned `Ok(t)`, `none` when it returned `Err` or panicked. -/
def getOk : Option (Except String VEBTree) → Option VEBTree
  | some (Except.ok t) => some t
  | _ => none

/-- Builds a tree by `new u` followed by the given sequence of `insert`s;
`none` when construction fails or any insert panics. -/
def buildT (u : Int) (xs : List Int) : Option VEBTree :=
  (getOk (new u)).bind fun t0 => xs.foldlM insert t0

end VEBTree

namespace VEBTree

/-! Unfolding equations.  The recursive definitions above bind their match
scrutinees (`match h : ...`) because the termination proofs need the
equations; these restated versions use plain matches, which rewrite and
reduce conveniently. -/

theorem has_eq (t : VEBTree) (x : Int) :
    has t x = (if x == t.max || x == t.min then some true
      else if t.univ == 2 || x > t.univ then some false
      else match childAt t (t.high x) with
        | none => none
        | some none => some false
        | some (some sub) => has sub (t.low x)) := by
  rw [VEBTree.has]
  split
  · rfl
  · split
    · rfl
    · split <;> rename_i heq <;> rw [heq]

theorem find_next_eq (t : VEBTree) (x : Int) :
    find_next t x = (if t.univ == 2 then
      some (if x == 0 && t.max == 1 then some 1 else none)
    else if x < t.min then some (some t.min)
    else match childAt t (t.high x) with
      | none => none
      | some none => find_subtree t x
      | some (some sub) =>
          if t.low x < sub.max then
            match find_next sub (t.low x) with
            | none => none
            | some none => none
            | some (some nxt) => some (some (t.index (t.high x) nxt))
          else find_subtree t x) := by
  rw [VEBTree.find_next]
  split
  · rfl
  · split
    · rfl
    · split <;> rename_i heq <;> rw [heq]

theorem find_subtree_eq (t : VEBTree) (x : Int) :
    find_subtree t x = (match t.summary with
      | none => none
      | some s =>
          match find_next s (t.high x) with
          | none => none
          | some none => some none
          | some (some j) =>
              match childAt t j with
              | none => none
              | some none => none
              | some (some sub) => some (some (t.index j sub.min))) := by
  rw [VEBTree.find_subtree]
  split <;> rename_i heq <;> rw [heq]

theorem clusterStep_eq (t : VEBTree) (x newMin : Int) :
    clusterStep t x newMin = (if t.univ > 2 then
      match childAt t (t.high x) with
      | none => none
      | some none =>
          match new t.sqrt_universe with
          | some (Except.ok nt) =>
              some (setChild (setMin t newMin) (t.high x).toNat
                      (some (nt.empty_insert (t.low x))))
          | _ => none
      | some (some sub) =>
          (insert sub (t.low x)).map
            (fun sub2 => setChild (setMin t newMin) (t.high x).toNat (some sub2))
    else some (setMin t newMin)) := by
  rw [VEBTree.clusterStep]
  split
  · split <;> rename_i heq <;> rw [heq]
  · rfl

end VEBTree

namespace VEBTree

/-- Computes `fsqrt` on a concrete operand from the characterization of
`Nat.sqrt`. -/
theorem fsqrt_eq_of_bounds (u : Int) (a : Nat) (h1 : a * a ≤ u.toNat)
    (h2 : u.toNat < (a + 1) * (a + 1)) : fsqrt u = (a : Int) := by
  simp only [fsqrt]
  exact congrArg _ (Nat.eq_sqrt.2 ⟨h1, h2⟩).symm

theorem fsqrt_2 : fsqrt 2 = 1 := fsqrt_eq_of_bounds 2 1 (by decide) (by decide)
theorem fsqrt_3 : fsqrt 3 = 1 := fsqrt_eq_of_bounds 3 1 (by decide) (by decide)
theorem fsqrt_4 : fsqrt 4 = 2 := fsqrt_eq_of_bounds 4 2 (by decide) (by decide)
theorem fsqrt_5 : fsqrt 5 = 2 := fsqrt_eq_of_bounds 5 2 (by decide) (by decide)
theorem fsqrt_7 : fsqrt 7 = 2 := fsqrt_eq_of_bounds 7 2 (by decide) (by decide)
theorem fsqrt_16 : fsqrt 16 = 4 := fsqrt_eq_of_bounds 16 4 (by decide) (by decide)
theorem fsqrt_49 : fsqrt 49 = 7 := fsqrt_eq_of_bounds 49 7 (by decide) (by decide)
theorem fsqrt_50 : fsqrt 50 = 7 := fsqrt_eq_of_bounds 50 7 (by decide) (by decide)

/-! Concrete trees produced by `new` on the universes exercised below. -/

/-- The empty tree `new(2)` returns (base case). -/
def e2 : VEBTree := .node (-1) (-1) 2 1 none [none]

/-- The empty tree `new(4)` returns. -/
def e4 : VEBTree := .node (-1) (-1) 4 2 (some e2) [none, none]

/-- The empty tree `new(5)` returns. -/
def e5 : VEBTree := .node (-1) (-1) 5 2 (some e2) [none, none]

/-- The empty tree `new(7)` returns. -/
def e7 : VEBTree := .node (-1) (-1) 7 2 (some e2) [none, none]

/-- The empty tree `new(16)` returns. -/
def e16 : VEBTree := .node (-1) (-1) 16 4 (some e4) [none, none, none, none]

/-- The empty tree `new(49)` returns. -/
def e49 : VEBTree :=
  .node (-1) (-1) 49 7 (some e7) [none, none, none, none, none, none, none]

/-- The empty tree `new(50)` returns. -/
def e50 : VEBTree :=
  .node (-1) (-1) 50 7 (some e7) [none, none, none, none, none, none, none]

theorem new_1 : new 1 = some (Except.error "universe size must be > 2") := by
  rw [VEBTree.new]; norm_num

theorem new_2 : new 2 = some (Except.ok e2) := by
  rw [VEBTree.new]; norm_num [fsqrt_2, e2]

theorem new_3 : new 3 = none := by
  rw [VEBTree.new]; norm_num [fsqrt_3, new_1]

theorem new_4 : new 4 = some (Except.ok e4) := by
  rw [VEBTree.new]; norm_num [fsqrt_4, new_2, e4]; try rfl

theorem new_5 : new 5 = some (Except.ok e5) := by
  rw [VEBTree.new]; norm_num [fsqrt_5, new_2, e5]; try rfl

theorem new_7 : new 7 = some (Except.ok e7) := by
  rw [VEBTree.new]; norm_num [fsqrt_7, new_2, e7]; try rfl

theorem new_16 : new 16 = some (Except.ok e16) := by
  rw [VEBTree.new]; norm_num [fsqrt_16, new_4, e16]; try rfl

theorem new_49 : new 49 = some (Except.ok e49) := by
  rw [VEBTree.new]; norm_num [fsqrt_49, new_7, e49]; try rfl

theorem new_50 : new 50 = some (Except.ok e50) := by
  rw [VEBTree.new]; norm_num [fsqrt_50, new_7, e50]; try rfl

end VEBTree

namespace VEBTree

/-! Field behaviour of the functional updates, needed symbolically. -/

@[simp] theorem min_empty_insert (t : VEBTree) (x : Int) : (empty_insert t x).min = x := by
  cases t; rfl
@[simp] theorem max_empty_insert (t : VEBTree) (x : Int) : (empty_insert t x).max = x := by
  cases t; rfl
@[simp] theorem min_setMin (t : VEBTree) (m : Int) : (setMin t m).min = m := by
  cases t; rfl
@[simp] theorem max_setMin (t : VEBTree) (m : Int) : (setMin t m).max = t.max := by
  cases t; rfl
@[simp] theorem min_setMax (t : VEBTree) (m : Int) : (setMax t m).min = t.min := by
  cases t; rfl
@[simp] theorem max_setMax (t : VEBTree) (m : Int) : (setMax t m).max = m := by
  cases t; rfl
@[simp] theorem min_setChild (t : VEBTree) (n : Nat) (c : Option VEBTree) :
    (setChild t n c).min = t.min := by cases t; rfl
@[simp] theorem max_setChild (t : VEBTree) (n : Nat) (c : Option VEBTree) :
    (setChild t n c).max = t.max := by cases t; rfl

/-! Concrete evaluation lemmas for the scenarios decided below.  Trees are
named after the universe and the inserted elements. -/

/-- Universe 16 after `insert(2)`. -/
def s16_2 : VEBTree := .node 2 2 16 4 (some e4) [none, none, none, none]

/-- The cluster holding offset 1 (created over universe 4). -/
def c4_1 : VEBTree := .node 1 1 4 2 (some e2) [none, none]

/-- Universe 16 after `insert(2); insert(9)`: 9 lands in cluster 2 at offset 1. -/
def s16_29 : VEBTree := .node 2 9 16 4 (some e4) [none, none, some c4_1, none]

theorem ins_e16_2 : insert e16 2 = some s16_2 := by rw [VEBTree.insert]; rfl

theorem ins_s16_2_9 : insert s16_2 9 = some s16_29 := by
  rw [VEBTree.insert, clusterStep_eq,
    show VEBTree.new s16_2.sqrt_universe = some (Except.ok e4) from by
      rw [show s16_2.sqrt_universe = (4 : Int) from rfl]; exact new_4]
  rfl

theorem fn_e2_0 : find_next e2 0 = some none := by rw [find_next_eq]; rfl

theorem fn_e4_0 : find_next e4 0 = some none := by
  rw [find_next_eq]
  show find_subtree e4 0 = some none
  rw [find_subtree_eq]
  simp [show e4.summary = some e2 from rfl, show e4.high 0 = 0 from rfl, fn_e2_0]

theorem fn_s16_29_2 : find_next s16_29 2 = some none := by
  rw [find_next_eq]
  show find_subtree s16_29 2 = some none
  rw [find_subtree_eq]
  simp [show s16_29.summary = some e4 from rfl, show s16_29.high 2 = 0 from rfl, fn_e4_0]

theorem has_s16_29_9 : has s16_29 9 = some true := by rw [has_eq]; rfl

theorem build16_29 : buildT 16 [2, 9] = some s16_29 := by
  simp [buildT, getOk, new_16, List.foldlM, ins_e16_2, ins_s16_2_9]

/-- Universe 16 after `insert(0)`. -/
def s16_0 : VEBTree := .node 0 0 16 4 (some e4) [none, none, none, none]

/-- Universe 16 after `insert(0); insert(5)`: 5 lands in cluster 1 at offset 1. -/
def s16_05 : VEBTree := .node 0 5 16 4 (some e4) [none, some c4_1, none, none]

theorem ins_e16_0 : insert e16 0 = some s16_0 := by rw [VEBTree.insert]; rfl

theorem ins_s16_0_5 : insert s16_0 5 = some s16_05 := by
  rw [VEBTree.insert, clusterStep_eq,
    show VEBTree.new s16_0.sqrt_universe = some (Except.ok e4) from by
      rw [show s16_0.sqrt_universe = (4 : Int) from rfl]; exact new_4]
  rfl

theorem has_e4_1 : has e4 1 = some false := by rw [has_eq]; rfl

theorem build16_05 : buildT 16 [0, 5] = some s16_05 := by
  simp [buildT, getOk, new_16, List.foldlM, ins_e16_0, ins_s16_0_5]

/-- Universe 16 after `insert(5)`. -/
def s16_5 : VEBTree := .node 5 5 16 4 (some e4) [none, none, none, none]

theorem ins_e16_5 : insert e16 5 = some s16_5 := by rw [VEBTree.insert]; rfl

theorem build16_5 : buildT 16 [5] = some s16_5 := by
  simp [buildT, getOk, new_16, List.foldlM, ins_e16_5]

theorem del_s16_5_3 : delete s16_5 3 = some e16 := rfl

theorem has_s16_5_5 : has s16_5 5 = some true := by rw [has_eq]; rfl

theorem has_e16_5 : has e16 5 = some false := by rw [has_eq]; rfl

theorem has_e16_16 : has e16 16 = none := by rw [has_eq]; rfl

/-- Universe 16 after the out-of-range `insert(100)` (silently cached). -/
def s16_100 : VEBTree := .node 100 100 16 4 (some e4) [none, none, none, none]

theorem ins_e16_100 : insert e16 100 = some s16_100 := by rw [VEBTree.insert]; rfl

theorem has_s16_100_100 : has s16_100 100 = some true := by rw [has_eq]; rfl

/-- Universe 49 after `insert(0)`. -/
def s49_0 : VEBTree := .node 0 0 49 7 (some e7) [none, none, none, none, none, none, none]

/-- The redundant cluster a duplicate `insert(0)` creates over universe 7. -/
def c7_0 : VEBTree := .node 0 0 7 2 (some e2) [none, none]

/-- Universe 49 after `insert(0); insert(0)`. -/
def s49_00 : VEBTree :=
  .node 0 0 49 7 (some e7) [some c7_0, none, none, none, none, none, none]

theorem ins_e49_0 : insert e49 0 = some s49_0 := by rw [VEBTree.insert]; rfl

theorem ins_s49_0_0 : insert s49_0 0 = some s49_00 := by
  rw [VEBTree.insert, clusterStep_eq,
    show VEBTree.new s49_0.sqrt_universe = some (Except.ok e7) from by
      rw [show s49_0.sqrt_universe = (7 : Int) from rfl]; exact new_7]
  rfl

theorem has_s49_0_6 : has s49_0 6 = some false := by rw [has_eq]; rfl

theorem has_s49_00_6 : has s49_00 6 = none := by
  rw [has_eq]
  show has c7_0 6 = none
  rw [has_eq]
  rfl

theorem build49_0 : buildT 49 [0] = some s49_0 := by
  simp [buildT, getOk, new_49, List.foldlM, ins_e49_0]

theorem build49_00 : buildT 49 [0, 0] = some s49_00 := by
  simp [buildT, getOk, new_49, List.foldlM, ins_e49_0, ins_s49_0_0]

/-- Universe 16 after `insert(3)`. -/
def s16_3 : VEBTree := .node 3 3 16 4 (some e4) [none, none, none, none]

/-- The cluster a duplicate `insert(3)` creates over universe 4. -/
def c4_3 : VEBTree := .node 3 3 4 2 (some e2) [none, none]

/-- Universe 16 after `insert(3); insert(3)`. -/
def s16_33 : VEBTree := .node 3 3 16 4 (some e4) [some c4_3, none, none, none]

theorem ins_e16_3 : insert e16 3 = some s16_3 := by rw [VEBTree.insert]; rfl

theorem ins_s16_3_3 : insert s16_3 3 = some s16_33 := by
  rw [VEBTree.insert, clusterStep_eq,
    show VEBTree.new s16_3.sqrt_universe = some (Except.ok e4) from by
      rw [show s16_3.sqrt_universe = (4 : Int) from rfl]; exact new_4]
  rfl

/-- Universe 5 after `insert(0)`. -/
def s5_0 : VEBTree := .node 0 0 5 2 (some e2) [none, none]

theorem ins_e5_0 : insert e5 0 = some s5_0 := by rw [VEBTree.insert]; rfl

theorem ins_s5_0_4 : insert s5_0 4 = none := by
  rw [VEBTree.insert, clusterStep_eq]; rfl

theorem build5_0 : buildT 5 [0] = some s5_0 := by
  simp [buildT, getOk, new_5, List.foldlM, ins_e5_0]

end VEBTree

namespace VEBTree

/-! Symbolic facts about `insert`, for insert idempotence. -/

/-- Whenever the cluster step returns (does not panic), it has set `min` to
the supplied post-swap minimum and left `max` untouched. -/
theorem clusterStep_min_max {t : VEBTree} {x m : Int} {t2 : VEBTree}
    (h : clusterStep t x m = some t2) : t2.min = m ∧ t2.max = t.max := by
  rw [clusterStep_eq] at h
  split at h
  · split at h
    · simp at h
    · split at h
      · simp only [Option.some.injEq] at h
        subst h
        simp
      · simp at h
    · obtain ⟨sub2, hs, rfl⟩ := Option.map_eq_some'.1 h
      simp
  · simp only [Option.some.injEq] at h
    subst h
    simp

/-- The `min` and `max` caches a non-panicking `insert` leaves behind, as
functions of the previous caches and the inserted value. -/
theorem insert_min_max {t t1 : VEBTree} {x0 : Int} (h : insert t x0 = some t1) :
    (t.min = -1 → t1.min = x0 ∧ t1.max = x0) ∧
    (t.min ≠ -1 →
      t1.min = swapMin t x0 ∧
      t1.max = (if swapX t x0 > t.max then swapX t x0 else t.max)) := by
  rw [VEBTree.insert] at h
  split at h <;> rename_i hc
  · rw [beq_iff_eq] at hc
    simp only [Option.some.injEq] at h
    subst h
    exact ⟨fun _ => ⟨by simp, by simp⟩, fun hne => absurd hc hne⟩
  · rw [beq_iff_eq] at hc
    obtain ⟨t2, hcs, rfl⟩ := Option.map_eq_some'.1 h
    obtain ⟨hm2, hx2⟩ := clusterStep_min_max hcs
    refine ⟨fun habs => absurd habs hc, fun _ => ⟨?_, ?_⟩⟩
    · split <;> simp [hm2]
    · split <;> rename_i hgt
      · rw [max_setMax, hx2] at *
        rw [if_pos hgt]
      · rw [hx2] at hgt ⊢
        rw [if_neg hgt]

end VEBTree

namespace VEBTree

/-- Modelled from the spec: the split factor the specification prescribes,
`2 ^ ⌊log2(universe) / 2⌋` (for positive `u`, `⌊log2 u⌋ = Nat.log2 u` and
`⌊r / 2⌋ = ⌊⌊r⌋ / 2⌋`), stated for comparison with the `fsqrt` value the
source stores. -/
def spec_split_factor (u : Nat) : Int := (2 : Int) ^ (Nat.log2 u / 2)

/-- C1: on the tree holding {2, 9} over universe 16, `has` reports 9 as
stored and 9 > 2, yet `find_next(2)` returns `None`: the summary (never
updated by `insert`) reports every cluster empty, so the cluster-skip path
finds nothing. -/
theorem c1_find_next_misses_stored_successor :
    (buildT 16 [2, 9]).bind (fun t => has t 9) = some true ∧
    (buildT 16 [2, 9]).bind (fun t => find_next t 2) = some none := by
  rw [build16_29]
  exact ⟨has_s16_29_9, fn_s16_29_2⟩

/-- C2: after `insert(0); insert(5)` over universe 16, cluster slot 1 is
occupied (non-empty) but membership of index 1 in the summary subtree is
`false`: the summary invariant is broken because `insert` never inserts the
new cluster index into `summary`. -/
theorem c2_summary_not_updated_on_first_cluster_insert :
    ((buildT 16 [0, 5]).bind (fun t => childAt t 1)).map Option.isSome = some true ∧
    (buildT 16 [0, 5]).bind (fun t => t.summary.bind (fun s => has s 1)) = some false := by
  rw [build16_05]
  exact ⟨rfl, has_e4_1⟩

/-- C3: `new(3)` neither succeeds nor returns one of the two advertised
errors: the split factor computed for 3 is 1, so the recursive
`VEBTree::new(1).unwrap()` for the summary panics, although 3 is neither
≤ 1 nor beyond `isize::MAX`. -/
theorem c3_new_panics_at_three :
    VEBTree.new 3 = none ∧ ¬ ((3 : Int) ≤ 1) ∧ ¬ ((3 : Int) > 2 ^ 63 - 1) :=
  ⟨new_3, by decide, by decide⟩

/-- C4: deleting the absent value 3 from the singleton set {5} over universe
16 is not a no-op: the leading `min == max` branch of `delete`
unconditionally clears the set, so `has(5)` flips from `true` to `false`. -/
theorem c4_delete_absent_clears_singleton :
    (buildT 16 [5]).bind (fun t => has t 5) = some true ∧
    (buildT 16 [5]).bind (fun t => (delete t 3).bind (fun t2 => has t2 5)) = some false := by
  rw [build16_5]
  exact ⟨has_s16_5_5, has_e16_5⟩

/-- C5: `has` is not total: probing the fresh universe-16 tree at
`x = 16 = universe` passes the `x > universe` guard (which is strict), then
indexes cluster `high(16) = 4` in a 4-slot vector, and the `subtree!` macro's
`expect` panics instead of returning `false`. -/
theorem c5_has_panics_at_universe_boundary :
    (getOk (VEBTree.new 16)).bind (fun t => has t 16) = none := by
  rw [new_16]
  exact has_e16_16

/-- C6: `insert` performs no range check and returns no error: inserting 100
into the empty universe-16 tree is accepted silently, caching 100 as
`min`/`max` and making `has(100)` true, rather than rejecting with
`OutOfRange`. -/
theorem c6_out_of_range_insert_silently_accepted :
    ((getOk (VEBTree.new 16)).bind (fun t => insert t 100)).map VEBTree.min = some 100 ∧
    ((getOk (VEBTree.new 16)).bind (fun t => insert t 100)).bind (fun t => has t 100) =
      some true := by
  rw [new_16]
  constructor
  · simp [getOk, ins_e16_100, s16_100]
  · simp [getOk, ins_e16_100, has_s16_100_100]

/-- C7: the tree `new(50)` returns (universe 50 is exercised by the
repository's own test) stores split factor `⌊√50⌋ = 7`, not the exact power
of two `2 ^ ⌊log2(50) / 2⌋ = 4` the specification prescribes. -/
theorem c7_split_factor_is_not_exact_power :
    (getOk (VEBTree.new 50)).map VEBTree.sqrt_universe = some 7 ∧
    spec_split_factor 50 = 4 ∧ ((7 : Int) ≠ 4) := by
  refine ⟨?_, ?_, by decide⟩
  · rw [new_50]; rfl
  · simp [spec_split_factor, Nat.log2]

/-- C8 counterexample: duplicate insertion is not observationally idempotent.
Over universe 49 (⌊√49⌋ = 7, whose clusters span the non-square universe 7),
after a single `insert(0)` the probe `has(6)` returns `false`, but after
`insert(0); insert(0)` the same probe panics: the duplicate insert
materializes a redundant cluster for the cached minimum, and probing inside
that cluster indexes slot `⌊6/2⌋ = 3` of its 2-slot child vector. -/
theorem c8_duplicate_insert_changes_observation :
    (buildT 49 [0]).bind (fun t => has t 6) = some false ∧
    (buildT 49 [0, 0]).bind (fun t => has t 6) = none := by
  constructor
  · rw [build49_0]; exact has_s49_0_6
  · rw [build49_00]; exact has_s49_00_6

/-- C8 (amended): an in-range duplicate `insert`, when it completes without
panicking, preserves the `minimum()` and `maximum()` observers (full
observational equality fails, see the counterexample). -/
theorem c8_duplicate_insert_preserves_min_max
    (t t1 t2 : VEBTree) (x : Int) (hx : 0 ≤ x)
    (h1 : insert t x = some t1) (h2 : insert t1 x = some t2) :
    t2.min = t1.min ∧ t2.max = t1.max := by
  obtain ⟨hA1, hB1⟩ := insert_min_max h1
  obtain ⟨hA2, hB2⟩ := insert_min_max h2
  by_cases h0 : t.min = -1
  · obtain ⟨hm1, hx1⟩ := hA1 h0
    have hne : t1.min ≠ -1 := by omega
    obtain ⟨hm2, hx2⟩ := hB2 hne
    have hsX : t1.swapX x = x := by
      unfold swapX; rw [hm1, if_neg (lt_irrefl x)]
    have hsM : t1.swapMin x = t1.min := by
      unfold swapMin; rw [hm1, if_neg (lt_irrefl x)]
    constructor
    · rw [hm2, hsM]
    · rw [hx2, hsX, if_neg (show ¬ x > t1.max by omega)]
  · obtain ⟨hm1, hx1⟩ := hB1 h0
    have hne : t1.min ≠ -1 := by
      rw [hm1]; unfold swapMin; split <;> omega
    have hxlt : ¬ (x < t1.min) := by
      rw [hm1]; unfold swapMin; split <;> omega
    have hxle : ¬ (x > t1.max) := by
      simp only [swapX] at hx1
      split_ifs at hx1 <;> omega
    obtain ⟨hm2, hx2⟩ := hB2 hne
    constructor
    · rw [hm2]; unfold swapMin; rw [if_neg hxlt]
    · rw [hx2]; unfold swapX; rw [if_neg hxlt, if_neg hxle]

/-- C8 witness: inserting 3 twice into the empty universe-16 tree; the
duplicate insert preserves the cached minimum and maximum. -/
theorem c8_duplicate_insert_preserves_min_max_witness :
    s16_33.min = s16_3.min ∧ s16_33.max = s16_3.max :=
  c8_duplicate_insert_preserves_min_max e16 s16_3 s16_33 3 (by decide)
    ins_e16_3 ins_s16_3_3

/-- C9: an in-range insert can panic. After `new(5)` (split factor
`⌊√5⌋ = 2`, two cluster slots) and `insert(0)`, the in-range `insert(4)`
computes cluster index `⌊4/2⌋ = 2` and `children.get_mut(2).unwrap()`
panics; `insert` has no `OutOfRange` (or any other) error path. -/
theorem c9_in_range_insert_panics :
    (0 : Int) ≤ 4 ∧ (4 : Int) < 5 ∧ buildT 5 [0] = some s5_0 ∧
    (buildT 5 [0]).bind (fun t => insert t 4) = none := by
  refine ⟨by decide, by decide, build5_0, ?_⟩
  rw [build5_0]
  exact ins_s5_0_4

/-- C10: every tree `new` returns successfully carries the sentinel −1 in
its `min`/`max` caches, and `has` compares against those caches before any
range check, so `has(-1)` answers `true` on a fresh tree. -/
theorem c10_fresh_tree_has_sentinel (u : Int) (t : VEBTree)
    (h : getOk (new u) = some t) : has t (-1) = some true := by
  have hmax : t.max = -1 := by
    rw [VEBTree.new] at h
    split at h
    · simp [getOk] at h
    · split at h
      · simp [getOk] at h
      · split at h
        · simp only [getOk, Option.some.injEq] at h
          subst h
          simp
        · split at h
          · simp only [getOk, Option.some.injEq] at h
            subst h
            simp
          · simp [getOk] at h
  rw [has_eq]
  simp [hmax]

/-- C10 witness: the fresh universe-16 tree answers `has(-1)` with `true`. -/
theorem c10_fresh_tree_has_sentinel_witness : has e16 (-1) = some true :=
  c10_fresh_tree_has_sentinel 16 e16 (by rw [new_16]; rfl)

end VEBTree
